import Mathlib

/-!
Shallow embedding of the wargames grand-strategy simulation core
(province/country/unit registries and the economy, military, combat and
diplomacy systems) and proofs about its operations.

Conventions of the embedding:
* Python `float` fields (money, income, strength, damage) are modelled as `ℚ`;
  every arithmetic operation the modelled code performs on them (sums,
  products by 0.5, comparisons, `min`) is exact in IEEE semantics at the
  inputs the theorems use, so `ℚ` is faithful there.
* Python `int` fields are `ℤ`; `int(x)` truncation toward zero and the floor
  division `//` are modelled explicitly (`pytrunc`, `pyFloorDiv`).
* Python `dict`s are insertion-ordered association lists, with assignment
  updating the first occurrence of a key in place and insertion appending
  (`dset`), exactly the CPython ordering contract; `list.remove` removes the
  first `==`-equal element (`List.erase`).
* In-place object mutation through the shared registries becomes functional
  update of the entry at the corresponding key (`dmodify`).
-/

namespace Wargames

/-! ### Ordered-dictionary helpers (CPython dict semantics) -/

/-- First value bound to key `k` (Python `dict.get`). -/
def dget {κ β : Type} [DecidableEq κ] : List (κ × β) → κ → Option β
  | [], _ => none
  | e :: r, k => if e.1 = k then some e.2 else dget r k

/-- Python `d[k] = v`: overwrite in place keeping the position of the key,
or append a fresh binding at the end. -/
def dset {κ β : Type} [DecidableEq κ] : List (κ × β) → κ → β → List (κ × β)
  | [], k, v => [(k, v)]
  | e :: r, k, v => if e.1 = k then (k, v) :: r else e :: dset r k v

/-- Python `del d[k]`: drop the binding for `k`. -/
def ddel {κ β : Type} [DecidableEq κ] (d : List (κ × β)) (k : κ) : List (κ × β) :=
  d.filter (fun e => decide (e.1 ≠ k))

/-- Python `k in d`. -/
def dmem {κ β : Type} [DecidableEq κ] (d : List (κ × β)) (k : κ) : Bool :=
  d.any (fun e => decide (e.1 = k))

/-- Mutation of the object stored at key `k` (Python objects are aliased by
the registry, so mutating the object rewrites the registry entry). -/
def dmodify {κ β : Type} [DecidableEq κ] : List (κ × β) → κ → (β → β) → List (κ × β)
  | [], _, _ => []
  | e :: r, k, f => if e.1 = k then (e.1, f e.2) :: r else e :: dmodify r k f

/-- Python `int(x)` for a rational: truncation toward zero. -/
def pytrunc (q : ℚ) : ℤ := if 0 ≤ q then ⌊q⌋ else ⌈q⌉

/-- Python `a // b` on integers: floor division. -/
def pyFloorDiv (a b : ℤ) : ℤ := Int.fdiv a b

/-! ### Data model (province.py, country.py, unit.py) -/

/-- `Province` dataclass from province.py. -/
structure Province where
  province_id : ℤ
  name : String
  terrain_type : String := "plains"
  development : ℤ := 1
  population : ℤ := 1000
  owner : Option String := none
  base_income : ℚ := 10
  manpower_pool : ℤ := 1000
  fortification_level : ℤ := 0
  is_capital : Bool := false
  is_coastal : Bool := false
deriving DecidableEq

namespace Province

/-- `Province.get_income`: base income times development. -/
def get_income (p : Province) : ℚ := p.base_income * (p.development : ℚ)

end Province

/-- `Country` dataclass from country.py.  `war_scores` is the
enemy-code-to-score dict in insertion order. -/
structure Country where
  code : String
  name : String
  capital_province_id : ℤ
  money : ℚ := 1000
  manpower : ℤ := 10000
  military_factories : ℤ := 10
  civilian_factories : ℤ := 10
  at_war_with : List String := []
  allied_with : List String := []
  war_scores : List (String × ℤ) := []
deriving DecidableEq

namespace Country

/-- `Country.add_money`. -/
def add_money (c : Country) (amount : ℚ) : Country :=
  { c with money := c.money + amount }

/-- `Country.spend_money`: debit only when the balance suffices, returning
whether the debit happened. -/
def spend_money (c : Country) (amount : ℚ) : Country × Bool :=
  if amount ≤ c.money then ({ c with money := c.money - amount }, true)
  else (c, false)

/-- `Country.add_manpower`. -/
def add_manpower (c : Country) (amount : ℤ) : Country :=
  { c with manpower := c.manpower + amount }

/-- `Country.recruit_manpower`: debit only when the pool suffices. -/
def recruit_manpower (c : Country) (amount : ℤ) : Country × Bool :=
  if amount ≤ c.manpower then ({ c with manpower := c.manpower - amount }, true)
  else (c, false)

/-- `Country.is_at_war_with`: membership in the at-war list. -/
def is_at_war_with (c : Country) (country_code : String) : Bool :=
  c.at_war_with.contains country_code

/-- `Country.declare_war`: only when not already at war, append the enemy and
initialise its war-score entry to 0; otherwise do nothing. -/
def declare_war (c : Country) (country_code : String) : Country :=
  if c.at_war_with.contains country_code then c
  else { c with
          at_war_with := c.at_war_with ++ [country_code],
          war_scores := dset c.war_scores country_code 0 }

/-- `Country.make_peace`: only when currently at war, remove the enemy from
the at-war list and delete its war-score entry if present. -/
def make_peace (c : Country) (country_code : String) : Country :=
  if c.at_war_with.contains country_code then
    { c with
      at_war_with := c.at_war_with.erase country_code,
      war_scores :=
        if dmem c.war_scores country_code then ddel c.war_scores country_code
        else c.war_scores }
  else c

end Country

/-- `UnitTemplate` dataclass from unit.py. -/
structure UnitTemplate where
  template_id : String
  name : String
  category : String
  attack : ℤ
  defense : ℤ
  max_hp : ℤ
  max_organization : ℤ
  speed : ℚ
  cost : ℚ
  manpower_cost : ℤ
  combat_width : ℤ := 2
deriving DecidableEq

/-- `Unit` dataclass from unit.py. -/
structure Unit where
  unit_id : ℤ
  template_id : String
  owner : String
  location : ℤ
  current_hp : ℤ
  organization : ℤ
  experience : ℤ := 0
  strength : ℚ := 1
  is_moving : Bool := false
  move_target : Option ℤ := none
deriving DecidableEq

namespace Unit

/-- `Unit.take_damage`: half of the damage, truncated to an integer, is taken
from hp and from organization, both floored at 0, then strength is recomputed
as hp over template max hp. -/
def take_damage (u : Unit) (damage : ℚ) (template : UnitTemplate) : Unit :=
  let hp1 := max 0 (u.current_hp - pytrunc (damage * (1/2)))
  let org1 := max 0 (u.organization - pytrunc (damage * (1/2)))
  { u with
    current_hp := hp1
    organization := org1
    strength := (hp1 : ℚ) / (template.max_hp : ℚ) }

/-- `Unit.is_destroyed`. -/
def is_destroyed (u : Unit) : Bool := decide (u.current_hp ≤ 0)

end Unit

/-! ### Economy system (systems/economy.py) -/

namespace EconomySystem

/-- The daily income a country collects: province income summed over the
provinces it owns (`get_provinces_by_owner` then `sum of get_income`). -/
def daily_income_of (provinces : List (ℤ × Province)) (code : String) : ℚ :=
  ((provinces.map Prod.snd).filter (fun p => p.owner = some code)).foldl
    (fun acc p => acc + p.get_income) 0

/-- The daily manpower a country collects: `population // 100` summed over
the provinces it owns. -/
def manpower_gain_of (provinces : List (ℤ × Province)) (code : String) : ℤ :=
  ((provinces.map Prod.snd).filter (fun p => p.owner = some code)).foldl
    (fun acc p => acc + pyFloorDiv p.population 100) 0

/-- `EconomySystem.collect_daily_income`: every country gains the summed
income of the provinces it owns. -/
def collect_daily_income (countries : List (String × Country))
    (provinces : List (ℤ × Province)) : List (String × Country) :=
  countries.map (fun e => (e.1, e.2.add_money (daily_income_of provinces e.1)))

/-- `EconomySystem.collect_manpower`: every country gains the summed
manpower of the provinces it owns. -/
def collect_manpower (countries : List (String × Country))
    (provinces : List (ℤ × Province)) : List (String × Country) :=
  countries.map (fun e => (e.1, e.2.add_manpower (manpower_gain_of provinces e.1)))

/-- `EconomySystem.update`: add the delta to the accumulator; if it reaches
the 24-hour interval, subtract the interval once and run the two daily
collections once.  Returns the new accumulator and country registry. -/
def update (time_accumulator : ℚ) (delta_time : ℚ)
    (countries : List (String × Country)) (provinces : List (ℤ × Province)) :
    ℚ × List (String × Country) :=
  let acc := time_accumulator + delta_time
  if 24 ≤ acc then
    (acc - 24, collect_manpower (collect_daily_income countries provinces) provinces)
  else
    (acc, countries)

/-- `EconomySystem.purchase_unit` on a resolved country object: spend the
money, and only if that succeeded also debit the manpower (Python
short-circuit `and`). -/
def purchase_unit (c : Country) (unit_cost : ℚ) (manpower_cost : ℤ) :
    Country × Bool :=
  let r1 := c.spend_money unit_cost
  if r1.2 then r1.1.recruit_manpower manpower_cost
  else (r1.1, false)

/-- `EconomySystem.can_afford_unit` on a resolved country object. -/
def can_afford_unit (c : Country) (unit_cost : ℚ) (manpower_cost : ℤ) : Bool :=
  decide (unit_cost ≤ c.money) && decide (manpower_cost ≤ c.manpower)

end EconomySystem

/-! ### Military system (systems/military.py) -/

namespace MilitarySystem

/-- CPython truthiness of the `move_target` field: `None` and the integer `0`
are both falsy, any other province id is truthy. -/
def target_truthy : Option ℤ → Bool
  | none => false
  | some t => decide (t ≠ 0)

/-- `MilitarySystem._move_unit`: instantaneous relocation to the target when
the target is truthy, clearing the movement state. -/
def move_unit (u : Unit) : Unit :=
  if target_truthy u.move_target then
    { u with
      location := u.move_target.getD u.location
      is_moving := false
      move_target := none }
  else u

/-- One iteration of the movement branch of `MilitarySystem.update`: the unit
is relocated only when `unit.is_moving and unit.move_target` is truthy. -/
def move_step (u : Unit) : Unit :=
  if u.is_moving && target_truthy u.move_target then move_unit u else u

/-- `MilitarySystem.update`: iterate over a copy of the roster; for each unit
resolve movement, then drop it from the roster when destroyed.  Unit ids are
unique, so removing by value equality removes exactly the iterated unit. -/
def update : List Unit → List Unit
  | [] => []
  | u :: rest =>
    let u1 := move_step u
    if u1.is_destroyed then update rest else u1 :: update rest

/-- `MilitarySystem.get_units_in_province`. -/
def get_units_in_province (units : List Unit) (province_id : ℤ) : List Unit :=
  units.filter (fun u => u.location = province_id)

/-- `MilitarySystem.get_units_in_province_by_owner`. -/
def get_units_in_province_by_owner (units : List Unit) (province_id : ℤ)
    (country_code : String) : List Unit :=
  units.filter (fun u => u.location = province_id ∧ u.owner = country_code)

end MilitarySystem

/-! ### Diplomacy system (systems/diplomacy.py) -/

/-- The dynamically typed `target_data` payload of a peace demand: a province
id for annexations, a money amount for reparations. -/
inductive TargetData where
  | pid (i : ℤ)
  | amount (q : ℚ)
deriving DecidableEq

/-- Numeric reading of a payload (Python arithmetic on `target_data`). -/
def TargetData.numVal : TargetData → ℚ
  | .pid i => (i : ℚ)
  | .amount q => q

/-- `PeaceDemand` dataclass. -/
structure PeaceDemand where
  demand_type : String
  target_data : TargetData
  war_score_cost : ℤ
deriving DecidableEq

/-- `PeaceTreaty` dataclass. -/
structure PeaceTreaty where
  from_country : String
  to_country : String
  demands : List PeaceDemand
  total_war_score_cost : ℤ
deriving DecidableEq

/-- The registries the diplomacy system reads and writes. -/
structure World where
  countries : List (String × Country)
  provinces : List (ℤ × Province)
deriving DecidableEq

namespace DiplomacySystem

/-- `DiplomacySystem.declare_war`: fail when either code is unknown,
otherwise let each country object declare war on the other. -/
def declare_war (countries : List (String × Country)) (attacker defender : String) :
    List (String × Country) × Bool :=
  match dget countries attacker, dget countries defender with
  | some _, some _ =>
    let c1 := dmodify countries attacker (fun c => c.declare_war defender)
    (dmodify c1 defender (fun c => c.declare_war attacker), true)
  | _, _ => (countries, false)

/-- `DiplomacySystem.make_peace`: when both codes are known, let each country
object make peace with the other. -/
def make_peace (countries : List (String × Country)) (country1 country2 : String) :
    List (String × Country) :=
  match dget countries country1, dget countries country2 with
  | some _, some _ =>
    let c1 := dmodify countries country1 (fun c => c.make_peace country2)
    dmodify c1 country2 (fun c => c.make_peace country1)
  | _, _ => countries

/-- `DiplomacySystem._calculate_demand_cost`. -/
def calculate_demand_cost (provinces : List (ℤ × Province)) (demand_type : String)
    (target_data : TargetData) : ℤ :=
  if demand_type = "annex_province" then
    match target_data with
    | .pid i =>
      match dget provinces i with
      | some p => 5 + p.development * 2
      | none => 10
    | .amount _ => 10
  else if demand_type = "war_reparations" then
    max 5 (pytrunc (target_data.numVal / 500))
  else if demand_type = "release_nation" then 30
  else if demand_type = "military_access" then 5
  else 10

/-- `DiplomacySystem.create_peace_demand`. -/
def create_peace_demand (provinces : List (ℤ × Province)) (demand_type : String)
    (target_data : TargetData) : PeaceDemand :=
  { demand_type := demand_type
    target_data := target_data
    war_score_cost := calculate_demand_cost provinces demand_type target_data }

/-- `DiplomacySystem._execute_demand`: annexation rewrites the owner of the
named province only when it is still owned by the loser; reparations move
`min(amount, loser money)` from loser to winner. -/
def execute_demand (w : World) (winner loser : String) (demand : PeaceDemand) : World :=
  if demand.demand_type = "annex_province" then
    match demand.target_data with
    | .pid i =>
      match dget w.provinces i with
      | some p =>
        if p.owner = some loser then
          { w with provinces := dmodify w.provinces i (fun q => { q with owner := some winner }) }
        else w
      | none => w
    | .amount _ => w
  else if demand.demand_type = "war_reparations" then
    match dget w.countries loser, dget w.countries winner with
    | some lc, some _ =>
      let amount := min demand.target_data.numVal lc.money
      let cs := dmodify w.countries loser (fun c => (c.spend_money amount).1)
      { w with countries := dmodify cs winner (fun c => c.add_money amount) }
    | _, _ => w
  else w

/-- `DiplomacySystem._execute_demands_list`. -/
def execute_demands_list (w : World) (winner loser : String)
    (demands : List PeaceDemand) : World :=
  demands.foldl (fun w d => execute_demand w winner loser d) w

/-- Diplomacy state: the shared registries plus the pending-treaty list. -/
structure DiploState where
  world : World
  pending_peace_treaties : List PeaceTreaty
deriving DecidableEq

/-- `DiplomacySystem.accept_peace_treaty`: only for a currently pending
treaty, execute the demands in order, make peace, and remove the treaty. -/
def accept_peace_treaty (st : DiploState) (treaty : PeaceTreaty) : DiploState × Bool :=
  if treaty ∈ st.pending_peace_treaties then
    let w1 := execute_demands_list st.world treaty.from_country treaty.to_country treaty.demands
    ({ world := { w1 with countries := make_peace w1.countries treaty.from_country treaty.to_country }
       pending_peace_treaties := st.pending_peace_treaties.erase treaty }, true)
  else (st, false)

/-- One step of the inner loop of `DiplomacySystem.auto_peace_at_100`,
driven by one `(enemy_code, war_score)` snapshot entry of the country with
code `code`: at a score of at least 100 and a known enemy, annex every
province the enemy still owns and make peace. -/
def auto_peace_enemy (w : World) (code : String) (entry : String × ℤ) : World :=
  if 100 ≤ entry.2 then
    match dget w.countries entry.1 with
    | some _ =>
      let enemy_provinces := (w.provinces.map Prod.snd).filter (fun p => p.owner = some entry.1)
      let demands := enemy_provinces.map
        (fun p => create_peace_demand w.provinces "annex_province" (.pid p.province_id))
      let w1 := execute_demands_list w code entry.1 demands
      { w1 with countries := make_peace w1.countries code entry.1 }
    | none => w
  else w

/-- The body of the outer loop of `auto_peace_at_100` for one country: fold
the inner loop over a snapshot of that country's war-score dict. -/
def auto_peace_country (w : World) (code : String) : World :=
  match dget w.countries code with
  | some c => c.war_scores.foldl (fun w e => auto_peace_enemy w code e) w
  | none => w

/-- `DiplomacySystem.auto_peace_at_100`: iterate over the countries present
at the start of the call. -/
def auto_peace_at_100 (w : World) : World :=
  (w.countries.map Prod.fst).foldl auto_peace_country w

end DiplomacySystem

/-! ### Combat system (systems/combat.py) -/

/-- `Battle` dataclass. -/
structure Battle where
  province_id : ℤ
  attackers : List String
  defenders : List String
  duration : ℚ := 0
deriving DecidableEq

namespace CombatSystem

/-- `CombatSystem._has_battle_in_province`. -/
def has_battle_in_province (battles : List Battle) (province_id : ℤ) : Bool :=
  battles.any (fun b => b.province_id = province_id)

/-- `CombatSystem.start_battle`: append a fresh battle with the first-seen
owner pair as single attacker and single defender. -/
def start_battle (battles : List Battle) (province_id : ℤ)
    (attacker defender : String) : List Battle :=
  battles ++ [{ province_id := province_id, attackers := [attacker], defenders := [defender] }]

/-- The insertion-ordered keys of the `by_owner` grouping dict built by
`detect_battles`. -/
def distinct_owners (units : List Unit) : List String :=
  units.foldl (fun acc u => if acc.contains u.owner then acc else acc ++ [u.owner]) []

/-- The ordered owner pairs `(owners[i], owners[j])` with `i < j` that the
nested loops of `detect_battles` visit. -/
def ordered_pairs {α : Type} : List α → List (α × α)
  | [] => []
  | x :: xs => xs.map (fun y => (x, y)) ++ ordered_pairs xs

/-- One iteration of the owner-pair loop of `detect_battles`: when both
owners are known countries and the first is at war with the second, start a
battle unless the province already has one. -/
def detect_step (countries : List (String × Country)) (province_id : ℤ)
    (battles : List Battle) (pr : String × String) : List Battle :=
  match dget countries pr.1, dget countries pr.2 with
  | some c1, some _ =>
    if c1.is_at_war_with pr.2 then
      if has_battle_in_province battles province_id then battles
      else start_battle battles province_id pr.1 pr.2
    else battles
  | _, _ => battles

/-- The body of `CombatSystem.detect_battles` for one province: among units
present, for every first-seen owner pair that is at war (as recorded by the
first owner), start a battle unless the province already has one. -/
def detect_battles_province (countries : List (String × Country)) (units : List Unit)
    (province_id : ℤ) (battles : List Battle) : List Battle :=
  let us := MilitarySystem.get_units_in_province units province_id
  if us.length < 2 then battles
  else
    (ordered_pairs (distinct_owners us)).foldl (detect_step countries province_id) battles

/-- `CombatSystem.detect_battles`: run the per-province detection over every
registered province. -/
def detect_battles (countries : List (String × Country)) (units : List Unit)
    (provinces : List (ℤ × Province)) (battles : List Battle) : List Battle :=
  (provinces.map Prod.snd).foldl
    (fun battles p => detect_battles_province countries units p.province_id battles)
    battles

/-- `CombatSystem._award_war_score`: add the points to the winner's score
against the loser only when such a score entry exists, then clamp at 100. -/
def award_war_score (countries : List (String × Country)) (winner loser : String)
    (points : ℤ) : List (String × Country) :=
  match dget countries winner with
  | some wc =>
    if dmem wc.war_scores loser then
      dmodify countries winner (fun c =>
        let s := min 100 ((dget c.war_scores loser).getD 0 + points)
        { c with war_scores := dset c.war_scores loser s })
    else countries
  | none => countries

/-- `CombatSystem._apply_damage_to_units`: split the total damage evenly and
apply each share through `Unit.take_damage` (units without a known template
are skipped). -/
def apply_damage_to_units (templates : List (String × UnitTemplate))
    (units : List Unit) (total_damage : ℚ) : List Unit :=
  if units.length = 0 then units
  else
    let damage_per_unit := total_damage / (units.length : ℚ)
    units.map (fun u =>
      match dget templates u.template_id with
      | some t => u.take_damage damage_per_unit t
      | none => u)

/-- Modelled from the spec: line 211 of systems/combat.py,
`if winner and old_owner := battle.attackers[0]:`, is a CPython SyntaxError
(an assignment expression whose target is not a plain name), so the shipped
module does not parse and the defender-victory branch of `end_battle` never
runs.  This definition renders the branch that line evidently intends, per
the spec sentence that the defender gains 2 war score against the first
listed attacker while ownership is unchanged: bind the first defender as
winner and the first attacker as old owner (both truthy) and award 2 points
through `_award_war_score`. -/
def end_battle_defenders_won (countries : List (String × Country)) (battle : Battle) :
    List (String × Country) :=
  match battle.defenders.head?, battle.attackers.head? with
  | some winner, some old_owner =>
    if winner ≠ "" ∧ old_owner ≠ "" then award_war_score countries winner old_owner 2
    else countries
  | _, _ => countries

/-- Invariant of the active-battle set: at most one battle references any
given province. -/
def at_most_one_battle (battles : List Battle) : Prop :=
  ∀ p : ℤ, battles.countP (fun b => decide (b.province_id = p)) ≤ 1

end CombatSystem

/-! ### Concrete states used by counterexamples and witnesses -/

/-- A country with enough money but not enough manpower for a 50/10 purchase. -/
def gerPoor : Country :=
  { code := "GER", name := "Germany", capital_province_id := 1, money := 100, manpower := 5 }

/-- The recruitment scenario country of the spec: money 2000, manpower 20000. -/
def gerRich : Country :=
  { code := "GER", name := "Germany", capital_province_id := 1, money := 2000, manpower := 20000 }

/-- The income scenario province of the spec: development 5, base income 10,
owned by GER. -/
def devProvince : Province :=
  { province_id := 1, name := "Berlin", development := 5, owner := some "GER" }

/-- A one-province registry for the economy scenarios. -/
def ecoProvinces : List (ℤ × Province) := [(1, devProvince)]

/-- Germany already at war with France, 50 war score accumulated. -/
def gerAtWar : Country :=
  { code := "GER", name := "Germany", capital_province_id := 1,
    at_war_with := ["FRA"], war_scores := [("FRA", 50)] }

/-- France already at war with Germany, 50 war score accumulated. -/
def fraAtWar : Country :=
  { code := "FRA", name := "France", capital_province_id := 4,
    at_war_with := ["GER"], war_scores := [("GER", 50)] }

/-- A registry whose two countries are already at war with score 50 each. -/
def warPair : List (String × Country) := [("GER", gerAtWar), ("FRA", fraAtWar)]

/-- France at peace, default resources. -/
def fraPlain : Country :=
  { code := "FRA", name := "France", capital_province_id := 4 }

/-- A healthy unit ordered to move to province 0 (a falsy target id). -/
def movingToZero : Unit :=
  { unit_id := 1, template_id := "infantry", owner := "GER", location := 7,
    current_hp := 100, organization := 100, is_moving := true, move_target := some 0 }

/-- A healthy unit ordered to move to province 3. -/
def movingUnit : Unit :=
  { unit_id := 2, template_id := "infantry", owner := "GER", location := 1,
    current_hp := 100, organization := 100, is_moving := true, move_target := some 3 }

/-- The infantry catalog entry of unit.py. -/
def infantryTemplate : UnitTemplate :=
  { template_id := "infantry", name := "Infantry Division", category := "land",
    attack := 30, defense := 50, max_hp := 100, max_organization := 100,
    speed := 4, cost := 100, manpower_cost := 1000, combat_width := 2 }

/-- A freshly created infantry unit at full strength. -/
def freshInfantry : Unit :=
  { unit_id := 3, template_id := "infantry", owner := "GER", location := 1,
    current_hp := 100, organization := 100 }

/-- Paris, owned by France. -/
def fraProvince : Province :=
  { province_id := 1, name := "Paris", development := 5, owner := some "FRA" }

/-- A demand annexing Paris. -/
def annexDemand : PeaceDemand :=
  { demand_type := "annex_province", target_data := .pid 1, war_score_cost := 15 }

/-- A treaty from Germany to France with the one annexation demand. -/
def pariTreaty : PeaceTreaty :=
  { from_country := "GER", to_country := "FRA", demands := [annexDemand],
    total_war_score_cost := 15 }

/-- The warring pair plus Paris. -/
def diploWorld : World := { countries := warPair, provinces := [(1, fraProvince)] }

/-- Diplomacy state in which `pariTreaty` is pending. -/
def pendingState : DiplomacySystem.DiploState :=
  { world := diploWorld, pending_peace_treaties := [pariTreaty] }

/-- A German unit standing in province 1. -/
def gerUnit : Unit :=
  { unit_id := 10, template_id := "infantry", owner := "GER", location := 1,
    current_hp := 100, organization := 100 }

/-- A French unit standing in province 1. -/
def fraUnit : Unit :=
  { unit_id := 11, template_id := "infantry", owner := "FRA", location := 1,
    current_hp := 100, organization := 100 }

/-- A battle in province 1 with Germany attacking and France defending. -/
def defBattle : Battle :=
  { province_id := 1, attackers := ["GER"], defenders := ["FRA"] }

/-- Germany with a full 100 war score against France. -/
def mutualGer : Country :=
  { code := "GER", name := "Germany", capital_province_id := 1,
    at_war_with := ["FRA"], war_scores := [("FRA", 100)] }

/-- France with a full 100 war score against Germany. -/
def mutualFra : Country :=
  { code := "FRA", name := "France", capital_province_id := 4,
    at_war_with := ["GER"], war_scores := [("GER", 100)] }

/-- Both sides at 100, France registered first, France owning province 1. -/
def mutualWorld : World :=
  { countries := [("FRA", mutualFra), ("GER", mutualGer)], provinces := [(1, fraProvince)] }

/-- France at war with Germany but with only 50 score. -/
def coldFra : Country :=
  { code := "FRA", name := "France", capital_province_id := 4,
    at_war_with := ["GER"], war_scores := [("GER", 50)] }

/-- Germany holds the only 100 score; France owns province 1. -/
def hotWorld : World :=
  { countries := [("GER", mutualGer), ("FRA", coldFra)], provinces := [(1, fraProvince)] }

/-- The war relation recorded in a country registry is symmetric: any two
registered countries agree on whether they are at war with each other. -/
def warSym (cs : List (String × Country)) : Prop :=
  ∀ ka kb ca cb, dget cs ka = some ca → dget cs kb = some cb →
    ca.is_at_war_with kb = cb.is_at_war_with ka

/-! ### Lemmas about the ordered-dictionary helpers -/

theorem dget_dmodify {κ β : Type} [DecidableEq κ] (d : List (κ × β)) (k k' : κ) (f : β → β) :
    dget (dmodify d k f) k' = if k' = k then (dget d k).map f else dget d k' := by
  induction d with
  | nil => simp [dmodify, dget]
  | cons e r ih =>
    by_cases he : e.1 = k
    · by_cases hk' : k' = k
      · subst hk'; simp [dmodify, dget, he]
      · have hek' : ¬ e.1 = k' := by rw [he]; exact fun h => hk' h.symm
        have hkk' : ¬ k = k' := fun h => hk' h.symm
        simp [dmodify, dget, he, hek', hk', hkk']
    · by_cases hek' : e.1 = k'
      · have hk' : ¬ k' = k := fun h => he (hek'.trans h)
        simp [dmodify, dget, he, hek', hk']
      · simp [dmodify, dget, he, hek', ih]

theorem dget_dset {κ β : Type} [DecidableEq κ] (d : List (κ × β)) (k k' : κ) (v : β) :
    dget (dset d k v) k' = if k' = k then some v else dget d k' := by
  induction d with
  | nil =>
    by_cases hk' : k' = k
    · simp [dset, dget, hk']
    · have : ¬ k = k' := fun h => hk' h.symm
      simp [dset, dget, hk', this]
  | cons e r ih =>
    by_cases he : e.1 = k
    · by_cases hk' : k' = k
      · subst hk'; simp [dset, dget, he]
      · have hek' : ¬ e.1 = k' := by rw [he]; exact fun h => hk' h.symm
        have hkk' : ¬ k = k' := fun h => hk' h.symm
        simp [dset, dget, he, hek', hk', hkk']
    · by_cases hek' : e.1 = k'
      · have hk' : ¬ k' = k := fun h => he (hek'.trans h)
        simp [dset, dget, he, hek', hk']
      · simp [dset, dget, he, hek', ih]

theorem dget_ddel {κ β : Type} [DecidableEq κ] (d : List (κ × β)) (k k' : κ) :
    dget (ddel d k) k' = if k' = k then none else dget d k' := by
  induction d with
  | nil => simp [ddel, dget]
  | cons e r ih =>
    by_cases he : e.1 = k
    · by_cases hk' : k' = k
      · subst hk'; simpa [ddel, dget, he] using ih
      · have hek' : ¬ e.1 = k' := by rw [he]; exact fun h => hk' h.symm
        have hkk' : ¬ k = k' := fun h => hk' h.symm
        simpa [ddel, List.filter, dget, he, hek', hk', hkk'] using ih
    · by_cases hek' : e.1 = k'
      · have hk' : ¬ k' = k := fun h => he (hek'.trans h)
        simp [ddel, List.filter, dget, he, hek', hk']
      · simpa [ddel, List.filter, dget, he, hek'] using ih

theorem dmem_eq_isSome {κ β : Type} [DecidableEq κ] (d : List (κ × β)) (k : κ) :
    dmem d k = (dget d k).isSome := by
  induction d with
  | nil => simp [dmem, dget]
  | cons e r ih =>
    by_cases he : e.1 = k
    · simp [dmem, dget, he]
    · simpa [dmem, dget, he] using ih

theorem keys_dmodify {κ β : Type} [DecidableEq κ] (d : List (κ × β)) (k : κ) (f : β → β) :
    (dmodify d k f).map Prod.fst = d.map Prod.fst := by
  induction d with
  | nil => rfl
  | cons e r ih =>
    by_cases he : e.1 = k
    · simp [dmodify, he]
    · simp [dmodify, he, ih]

theorem dget_map_values {κ β : Type} [DecidableEq κ] (d : List (κ × β)) (k : κ)
    (f : κ × β → β) :
    dget (d.map (fun e => (e.1, f e))) k = (dget d k).map (fun v => f (k, v)) := by
  induction d with
  | nil => simp [dget]
  | cons e r ih =>
    by_cases he : e.1 = k
    · subst he; simp [dget]
    · simp [dget, he, ih]

/-! ### C1: purchase semantics -/

/-- C1 counterexample: with money 100 and manpower 5, a purchase costing
50 money and 10 manpower has insufficient manpower, so the claim says it
returns false leaving money unchanged; the code returns false with the money
already debited to 50. -/
theorem purchase_unit_partial_debit_counterexample :
    (EconomySystem.purchase_unit gerPoor 50 10).2 = false ∧
    (EconomySystem.purchase_unit gerPoor 50 10).1.money ≠ gerPoor.money ∧
    50 ≤ gerPoor.money ∧ ¬ (10 : ℤ) ≤ gerPoor.manpower := by
  refine ⟨?_, ?_, ?_, ?_⟩ <;>
    norm_num [EconomySystem.purchase_unit, Country.spend_money,
      Country.recruit_manpower, gerPoor]

/-- C1 (amended): a purchase with both resources sufficient debits both by
exactly the costs and returns true; with insufficient money it changes
nothing and returns false; but with sufficient money and insufficient
manpower it returns false having already debited the money (Python
short-circuit `and`), leaving manpower unchanged — check-then-commit does
not hold on the money leg. -/
theorem purchase_unit_check_then_partial_debit (c : Country) (uc : ℚ) (mc : ℤ) :
    (uc ≤ c.money → mc ≤ c.manpower →
      EconomySystem.purchase_unit c uc mc =
        ({ c with money := c.money - uc, manpower := c.manpower - mc }, true)) ∧
    (¬ uc ≤ c.money → EconomySystem.purchase_unit c uc mc = (c, false)) ∧
    (uc ≤ c.money → ¬ mc ≤ c.manpower →
      EconomySystem.purchase_unit c uc mc = ({ c with money := c.money - uc }, false)) := by
  refine ⟨fun h1 h2 => ?_, fun h1 => ?_, fun h1 h2 => ?_⟩
  · simp [EconomySystem.purchase_unit, Country.spend_money,
      Country.recruit_manpower, h1, h2]
  · simp [EconomySystem.purchase_unit, Country.spend_money, h1]
  · simp [EconomySystem.purchase_unit, Country.spend_money,
      Country.recruit_manpower, h1, h2]

/-- C1 witness: the spec recruitment scenario, money 2000 and manpower 20000
buying a 100/1000 unit, lands on money 1900 and manpower 19000. -/
theorem purchase_unit_success_witness :
    EconomySystem.purchase_unit gerRich 100 1000 =
      ({ gerRich with money := gerRich.money - 100, manpower := gerRich.manpower - 1000 }, true) :=
  (purchase_unit_check_then_partial_debit gerRich 100 1000).1
    (by norm_num [gerRich]) (by norm_num [gerRich])

/-! ### Lemmas about Country war-state transitions -/

theorem is_at_war_with_declare_war (c : Country) (x y : String) :
    (c.declare_war x).is_at_war_with y = (c.is_at_war_with y || decide (y = x)) := by
  by_cases h : x ∈ c.at_war_with
  · by_cases hyx : y = x
    · subst hyx
      simp [Country.declare_war, h, Country.is_at_war_with]
    · simp [Country.declare_war, h, Country.is_at_war_with, hyx]
  · simp [Country.declare_war, h, Country.is_at_war_with]

theorem is_at_war_with_make_peace (c : Country) (x y : String)
    (h : c.at_war_with.Nodup) :
    (c.make_peace x).is_at_war_with y = (c.is_at_war_with y && !decide (y = x)) := by
  by_cases hc : x ∈ c.at_war_with
  · by_cases hyx : y = x
    · subst hyx
      simp [Country.make_peace, hc, Country.is_at_war_with, List.Nodup.not_mem_erase h]
    · simp [Country.make_peace, hc, Country.is_at_war_with, List.mem_erase_of_ne hyx, hyx]
  · by_cases hyx : y = x
    · subst hyx
      simp [Country.make_peace, hc, Country.is_at_war_with]
    · simp [Country.make_peace, hc, Country.is_at_war_with, hyx]

theorem declare_war_of_at_war (c : Country) (x : String)
    (h : c.is_at_war_with x = true) : c.declare_war x = c := by
  have hx : x ∈ c.at_war_with := by
    simpa [Country.is_at_war_with] using h
  simp [Country.declare_war, hx]

theorem war_scores_declare_war_new (c : Country) (x : String)
    (h : c.is_at_war_with x = false) :
    dget (c.declare_war x).war_scores x = some 0 := by
  have hx : x ∉ c.at_war_with := by
    simpa [Country.is_at_war_with] using h
  simp [Country.declare_war, hx, dget_dset]

theorem war_scores_make_peace_self (c : Country) (x : String)
    (hcons : c.is_at_war_with x = false → dmem c.war_scores x = false) :
    dget (c.make_peace x).war_scores x = none := by
  by_cases hc : x ∈ c.at_war_with
  · by_cases hm : dmem c.war_scores x
    · simp [Country.make_peace, hc, hm, dget_ddel]
    · have hnone : (dget c.war_scores x).isSome = false := by
        rw [← dmem_eq_isSome]; exact eq_false_of_ne_true hm
      simp [Country.make_peace, hc, hm]
      exact Option.not_isSome_iff_eq_none.mp (by simp [hnone])
  · have hx : c.is_at_war_with x = false := by
      simp [Country.is_at_war_with, hc]
    have := hcons hx
    rw [dmem_eq_isSome] at this
    simp [Country.make_peace, hc]
    exact Option.not_isSome_iff_eq_none.mp (by simp [this])

/-! ### C2: economy accumulator cadence -/

/-- C2 counterexample: from an empty accumulator, one `update` with a delta
of 48 hours spans two full days, so the claim says the daily accrual fires
twice (money 2000 + 2·50) leaving remainder 0; the code fires once (money
2050) and leaves 24 in the accumulator. -/
theorem economy_update_once_per_call_counterexample :
    (EconomySystem.update 0 48 [("GER", gerRich)] ecoProvinces).1 = 24 ∧
    ((EconomySystem.update 0 48 [("GER", gerRich)] ecoProvinces).2.map
      (fun e => e.2.money)) = [2050] ∧
    (2050 : ℚ) ≠ 2000 + 2 * 50 ∧ (24 : ℚ) ≠ 48 - 2 * 24 := by
  refine ⟨?_, ?_, by norm_num, by norm_num⟩ <;>
    norm_num [EconomySystem.update, EconomySystem.collect_daily_income,
      EconomySystem.collect_manpower, EconomySystem.daily_income_of,
      EconomySystem.manpower_gain_of, Country.add_money, Country.add_manpower,
      Province.get_income, pyFloorDiv, gerRich, devProvince, ecoProvinces]

/-- C2 (amended): `update` accumulates dt and fires the daily accrual at
most once per call — it fires exactly when the accumulated time reaches 24
hours, subtracting the threshold once so the overflow remainder is retained
(a dt spanning several days fires on that many successive calls), and on a
fire every known country gains its owned-province income and manpower once. -/
theorem economy_update_fires_at_most_once (acc dt : ℚ)
    (cs : List (String × Country)) (ps : List (ℤ × Province)) :
    (24 ≤ acc + dt →
      EconomySystem.update acc dt cs ps =
        (acc + dt - 24,
         EconomySystem.collect_manpower (EconomySystem.collect_daily_income cs ps) ps)) ∧
    (acc + dt < 24 → EconomySystem.update acc dt cs ps = (acc + dt, cs)) ∧
    (24 ≤ acc + dt → ∀ k c, dget cs k = some c →
      dget (EconomySystem.update acc dt cs ps).2 k =
        some ((c.add_money (EconomySystem.daily_income_of ps k)).add_manpower
                (EconomySystem.manpower_gain_of ps k))) := by
  refine ⟨fun h => ?_, fun h => ?_, fun h k c hk => ?_⟩
  · simp [EconomySystem.update, h]
  · simp [EconomySystem.update, not_le.mpr h]
  · simp only [EconomySystem.update, if_pos h]
    rw [EconomySystem.collect_manpower, dget_map_values,
      EconomySystem.collect_daily_income, dget_map_values, hk]
    rfl

/-- C2 witness: the one-day spec scenario, 24 hours in one call on a
development-5 province (income 50, manpower 10): money 2000 → 2050,
manpower 20000 → 20010, accumulator back to 0. -/
theorem economy_update_fire_witness :
    dget (EconomySystem.update 0 24 [("GER", gerRich)] ecoProvinces).2 "GER" =
      some ((gerRich.add_money (EconomySystem.daily_income_of ecoProvinces "GER")).add_manpower
              (EconomySystem.manpower_gain_of ecoProvinces "GER")) :=
  (economy_update_fires_at_most_once 0 24 [("GER", gerRich)] ecoProvinces).2.2
    (by norm_num) "GER" gerRich (by simp [dget])

/-! ### C3: war declaration -/

/-- C3 counterexample: Germany and France are already at war with mutual
war score 50; `declare_war` succeeds (returns true) but, contrary to the
claim that a re-declaration always resets both scores to 0, it leaves both
country objects — scores included — completely unchanged. -/
theorem declare_war_no_reset_counterexample :
    (DiplomacySystem.declare_war warPair "GER" "FRA").2 = true ∧
    (DiplomacySystem.declare_war warPair "GER" "FRA").1 = warPair ∧
    dget gerAtWar.war_scores "FRA" = some 50 ∧
    dget fraAtWar.war_scores "GER" = some 50 ∧ (50 : ℤ) ≠ 0 := by
  refine ⟨?_, ?_, by simp [gerAtWar, dget], by simp [fraAtWar, dget], by decide⟩ <;>
    simp [DiplomacySystem.declare_war, warPair, dget, dmodify,
      Country.declare_war, gerAtWar, fraAtWar]

/-- C3 (amended): when both codes are known and distinct, `declare_war`
returns true and afterwards each country lists the other as at war; a war
score entry is initialised to 0 on a side exactly when that side was not
already at war with the other, while a side already at war is left entirely
unchanged (its existing score is preserved, not reset). -/
theorem declare_war_correct (cs : List (String × Country)) (a b : String)
    (ca cb : Country) (hne : a ≠ b)
    (ha : dget cs a = some ca) (hb : dget cs b = some cb) :
    (DiplomacySystem.declare_war cs a b).2 = true ∧
    dget (DiplomacySystem.declare_war cs a b).1 a = some (ca.declare_war b) ∧
    dget (DiplomacySystem.declare_war cs a b).1 b = some (cb.declare_war a) ∧
    (ca.declare_war b).is_at_war_with b = true ∧
    (cb.declare_war a).is_at_war_with a = true ∧
    (ca.is_at_war_with b = false → dget (ca.declare_war b).war_scores b = some 0) ∧
    (cb.is_at_war_with a = false → dget (cb.declare_war a).war_scores a = some 0) ∧
    (ca.is_at_war_with b = true → ca.declare_war b = ca) ∧
    (cb.is_at_war_with a = true → cb.declare_war a = cb) ∧
    (∀ k, k ≠ a → k ≠ b → dget (DiplomacySystem.declare_war cs a b).1 k = dget cs k) := by
  have hres : DiplomacySystem.declare_war cs a b =
      (dmodify (dmodify cs a (fun c => c.declare_war b)) b (fun c => c.declare_war a), true) := by
    simp [DiplomacySystem.declare_war, ha, hb]
  have hba : ¬ b = a := fun h => hne h.symm
  refine ⟨by rw [hres], ?_, ?_, ?_, ?_, ?_, ?_, ?_, ?_, ?_⟩
  · rw [hres]
    simp [dget_dmodify, hne, ha]
  · rw [hres]
    simp [dget_dmodify, hba, hb]
  · simp [is_at_war_with_declare_war]
  · simp [is_at_war_with_declare_war]
  · exact fun h => war_scores_declare_war_new ca b h
  · exact fun h => war_scores_declare_war_new cb a h
  · exact fun h => declare_war_of_at_war ca b h
  · exact fun h => declare_war_of_at_war cb a h
  · intro k hka hkb
    rw [hres]
    simp [dget_dmodify, hka, hkb]

/-- C3 witness: on the fresh pair (no prior war), declaring war makes the
registry record Germany at war with France with its score entry at 0. -/
theorem declare_war_witness :
    dget (DiplomacySystem.declare_war [("GER", gerRich), ("FRA", fraPlain)] "GER" "FRA").1 "GER"
      = some (gerRich.declare_war "FRA") ∧
    (gerRich.declare_war "FRA").is_at_war_with "FRA" = true ∧
    dget (gerRich.declare_war "FRA").war_scores "FRA" = some 0 := by
  have H := declare_war_correct [("GER", gerRich), ("FRA", fraPlain)] "GER" "FRA"
    gerRich fraPlain (by decide) (by simp [dget]) (by simp [dget])
  exact ⟨H.2.1, H.2.2.2.1, H.2.2.2.2.2.1 (by simp [gerRich, Country.is_at_war_with])⟩

/-! ### C6: military update -/

theorem move_step_current_hp (u : Unit) :
    (MilitarySystem.move_step u).current_hp = u.current_hp := by
  simp only [MilitarySystem.move_step, MilitarySystem.move_unit]
  split <;> [skip; rfl]
  split <;> rfl

theorem military_update_eq (units : List Unit) :
    MilitarySystem.update units =
      (units.map MilitarySystem.move_step).filter (fun u => !u.is_destroyed) := by
  induction units with
  | nil => rfl
  | cons u rest ih =>
    by_cases h : (MilitarySystem.move_step u).is_destroyed = true
    · simp [MilitarySystem.update, h, ih]
    · simp [MilitarySystem.update, h, ih, eq_false_of_ne_true h]

/-- C6 counterexample: a healthy unit moving with the set target province 0
is left untouched by `update` — CPython evaluates `unit.move_target` as
falsy for the id 0 — contradicting the claim that every moving unit with a
set target ends the call relocated with the flags cleared. -/
theorem military_update_falsy_target_counterexample :
    MilitarySystem.update [movingToZero] = [movingToZero] ∧
    movingToZero.is_moving = true ∧ movingToZero.move_target = some 0 ∧
    movingToZero.location = 7 ∧ (7 : ℤ) ≠ 0 := by
  refine ⟨?_, rfl, rfl, rfl, by decide⟩
  simp [MilitarySystem.update, MilitarySystem.move_step, MilitarySystem.target_truthy,
    Unit.is_destroyed, movingToZero]

/-- C6 (amended): `update` maps movement resolution over the roster and then
filters out destroyed units, in that order per unit: every unit moving with
a set truthy target (CPython: a target of `None` or province id 0 is falsy
and the unit is not moved) is relocated to the target with flag and target
cleared and, if alive, remains on the roster; every destroyed unit is absent
from the roster afterwards, even when it had a pending move (it is relocated
first and removed in the same call); all other units survive unchanged. -/
theorem military_update_correct (units : List Unit) :
    MilitarySystem.update units =
      (units.map MilitarySystem.move_step).filter (fun u => !u.is_destroyed) ∧
    (∀ u ∈ units, u.is_moving = true → MilitarySystem.target_truthy u.move_target = true →
      (MilitarySystem.move_step u).location = u.move_target.getD u.location ∧
      (MilitarySystem.move_step u).is_moving = false ∧
      (MilitarySystem.move_step u).move_target = none ∧
      (0 < u.current_hp → MilitarySystem.move_step u ∈ MilitarySystem.update units)) ∧
    (∀ v ∈ MilitarySystem.update units, 0 < v.current_hp) ∧
    (∀ u ∈ units, u.current_hp ≤ 0 →
      MilitarySystem.move_step u ∉ MilitarySystem.update units) ∧
    (∀ u ∈ units, (u.is_moving && MilitarySystem.target_truthy u.move_target) = false →
      0 < u.current_hp → u ∈ MilitarySystem.update units) := by
  refine ⟨military_update_eq units, ?_, ?_, ?_, ?_⟩
  · intro u hu hmov htr
    have hstep : MilitarySystem.move_step u = MilitarySystem.move_unit u := by
      simp [MilitarySystem.move_step, hmov, htr]
    refine ⟨?_, ?_, ?_, ?_⟩
    · simp [hstep, MilitarySystem.move_unit, htr]
    · simp [hstep, MilitarySystem.move_unit, htr]
    · simp [hstep, MilitarySystem.move_unit, htr]
    · intro hhp
      rw [military_update_eq, List.mem_filter]
      refine ⟨List.mem_map_of_mem _ hu, ?_⟩
      simp [Unit.is_destroyed, move_step_current_hp]
      omega
  · intro v hv
    rw [military_update_eq, List.mem_filter] at hv
    have := hv.2
    simp [Unit.is_destroyed] at this
    omega
  · intro u hu hhp hmem
    rw [military_update_eq, List.mem_filter] at hmem
    have := hmem.2
    simp [Unit.is_destroyed, move_step_current_hp] at this
    omega
  · intro u hu hcond hhp
    have hstep : MilitarySystem.move_step u = u := by
      simp only [MilitarySystem.move_step, hcond]
      rfl
    rw [military_update_eq, List.mem_filter]
    refine ⟨?_, ?_⟩
    · have := List.mem_map_of_mem MilitarySystem.move_step hu
      rwa [hstep] at this
    · simp [Unit.is_destroyed]
      omega

/-- C6 witness: the healthy unit moving to province 3 ends the call at
location 3, no longer moving, with no target, and still on the roster. -/
theorem military_update_witness :
    (MilitarySystem.move_step movingUnit).location = movingUnit.move_target.getD movingUnit.location ∧
    (MilitarySystem.move_step movingUnit).is_moving = false ∧
    (MilitarySystem.move_step movingUnit).move_target = none ∧
    MilitarySystem.move_step movingUnit ∈ MilitarySystem.update [movingUnit] := by
  have H := (military_update_correct [movingUnit]).2.1 movingUnit (by simp)
    (by rfl) (by decide)
  exact ⟨H.1, H.2.1, H.2.2.1, H.2.2.2 (by decide)⟩

/-! ### C8: damage application -/

/-- C8 counterexample: a full-strength infantry unit receiving a damage
share of 1 keeps hp 100, because the code subtracts `int(damage * 0.5)` =
`int(0.5)` = 0; the claim that hp is decremented by damage × 0.5 = 0.5 is
false at this input. -/
theorem take_damage_truncation_counterexample :
    (freshInfantry.take_damage 1 infantryTemplate).current_hp = 100 ∧
    ¬ (((freshInfantry.take_damage 1 infantryTemplate).current_hp : ℚ) =
        (freshInfantry.current_hp : ℚ) - 1 * (1/2)) := by
  have h : (freshInfantry.take_damage 1 infantryTemplate).current_hp = 100 := by
    norm_num [Unit.take_damage, pytrunc, freshInfantry, infantryTemplate]
  refine ⟨h, ?_⟩
  rw [h]
  norm_num [freshInfantry]

/-- C8 (amended): a unit receiving a damage share d ≥ 0 has hp and
organization each decremented by the integer truncation of d × 0.5 (not by
d × 0.5 itself), each floored at 0, and immediately afterwards its strength
equals current hp divided by the template's max hp. -/
theorem take_damage_correct (u : Unit) (d : ℚ) (t : UnitTemplate) (hd : 0 ≤ d) :
    (u.take_damage d t).current_hp = max 0 (u.current_hp - ⌊d / 2⌋) ∧
    (u.take_damage d t).organization = max 0 (u.organization - ⌊d / 2⌋) ∧
    (u.take_damage d t).strength =
      ((u.take_damage d t).current_hp : ℚ) / (t.max_hp : ℚ) ∧
    0 ≤ (u.take_damage d t).current_hp ∧ 0 ≤ (u.take_damage d t).organization := by
  have htr : pytrunc (d * 2⁻¹) = ⌊d / 2⌋ := by
    rw [pytrunc, if_pos (by positivity), div_eq_mul_inv]
  refine ⟨?_, ?_, ?_, ?_, ?_⟩ <;> simp [Unit.take_damage, htr, le_max_left]

/-- C8 witness: the amended statement at the full-strength infantry unit
with a damage share of 10 (hp 100 → 95, strength 95/100). -/
theorem take_damage_witness :
    (freshInfantry.take_damage 10 infantryTemplate).current_hp =
      max 0 (freshInfantry.current_hp - ⌊(10 : ℚ) / 2⌋) ∧
    (freshInfantry.take_damage 10 infantryTemplate).organization =
      max 0 (freshInfantry.organization - ⌊(10 : ℚ) / 2⌋) ∧
    (freshInfantry.take_damage 10 infantryTemplate).strength =
      ((freshInfantry.take_damage 10 infantryTemplate).current_hp : ℚ) /
        (infantryTemplate.max_hp : ℚ) ∧
    0 ≤ (freshInfantry.take_damage 10 infantryTemplate).current_hp ∧
    0 ≤ (freshInfantry.take_damage 10 infantryTemplate).organization :=
  take_damage_correct freshInfantry 10 infantryTemplate (by norm_num)

/-! ### C9: treaty acceptance -/

/-- C9: accepting a treaty that is not pending returns false and leaves the
whole diplomacy state unchanged; accepting a pending treaty returns true,
transforms the world by executing every demand in order and then making
peace, and removes one occurrence of the treaty from the pending list (so
when the treaty is pending at most once it is no longer pending). -/
theorem accept_peace_treaty_correct (st : DiplomacySystem.DiploState) (t : PeaceTreaty) :
    (t ∉ st.pending_peace_treaties →
      DiplomacySystem.accept_peace_treaty st t = (st, false)) ∧
    (t ∈ st.pending_peace_treaties →
      (DiplomacySystem.accept_peace_treaty st t).2 = true ∧
      (DiplomacySystem.accept_peace_treaty st t).1.world =
        { DiplomacySystem.execute_demands_list st.world t.from_country t.to_country t.demands with
            countries := DiplomacySystem.make_peace
              (DiplomacySystem.execute_demands_list st.world
                t.from_country t.to_country t.demands).countries
              t.from_country t.to_country } ∧
      (DiplomacySystem.accept_peace_treaty st t).1.pending_peace_treaties =
        st.pending_peace_treaties.erase t) ∧
    (t ∈ st.pending_peace_treaties → st.pending_peace_treaties.count t ≤ 1 →
      t ∉ (DiplomacySystem.accept_peace_treaty st t).1.pending_peace_treaties) := by
  refine ⟨fun h => ?_, fun h => ?_, fun h hc => ?_⟩
  · simp [DiplomacySystem.accept_peace_treaty, h]
  · refine ⟨?_, ?_, ?_⟩ <;> simp [DiplomacySystem.accept_peace_treaty, h]
  · have hone : st.pending_peace_treaties.count t = 1 := by
      have := List.count_pos_iff.mpr h
      omega
    have hzero : (st.pending_peace_treaties.erase t).count t = 0 := by
      rw [List.count_erase_self, hone]
    simp [DiplomacySystem.accept_peace_treaty, h]
    intro hmem
    have := List.count_pos_iff.mpr hmem
    omega

/-- C9 witness: accepting the pending Paris treaty returns true and empties
the pending list; re-accepting from the non-pending state would return
false with the state unchanged. -/
theorem accept_peace_treaty_witness :
    (DiplomacySystem.accept_peace_treaty pendingState pariTreaty).2 = true ∧
    (DiplomacySystem.accept_peace_treaty pendingState pariTreaty).1.pending_peace_treaties =
      pendingState.pending_peace_treaties.erase pariTreaty := by
  have H := (accept_peace_treaty_correct pendingState pariTreaty).2.1
    (by simp [pendingState])
  exact ⟨H.1, H.2.2⟩

/-! ### C7: war symmetry -/

theorem dget_mem {κ β : Type} [DecidableEq κ] {d : List (κ × β)} {k : κ} {v : β}
    (h : dget d k = some v) : (k, v) ∈ d := by
  induction d with
  | nil => simp [dget] at h
  | cons e r ih =>
    by_cases he : e.1 = k
    · simp only [dget, if_pos he, Option.some.injEq] at h
      have : e = (k, v) := Prod.ext he h
      rw [← this]
      exact List.mem_cons_self e r
    · simp only [dget, if_neg he] at h
      exact List.mem_cons_of_mem _ (ih h)

theorem warSym_of_forall_mem (cs : List (String × Country))
    (h : ∀ e1 ∈ cs, ∀ e2 ∈ cs,
      (e1.2).is_at_war_with e2.1 = (e2.2).is_at_war_with e1.1) : warSym cs :=
  fun _ _ _ _ h1 h2 => h _ (dget_mem h1) _ (dget_mem h2)

theorem nodup_at_war_make_peace (c : Country) (x : String)
    (h : c.at_war_with.Nodup) : (c.make_peace x).at_war_with.Nodup := by
  rw [Country.make_peace]
  split
  · exact h.erase x
  · exact h

theorem dmem_true_iff {κ β : Type} [DecidableEq κ] (d : List (κ × β)) (k : κ) :
    dmem d k = true ↔ ∃ e ∈ d, e.1 = k := by
  simp [dmem, List.any_eq_true]

theorem cons_scores_of_lists (c : Country)
    (h1 : ∀ x ∈ c.at_war_with, dmem c.war_scores x = true)
    (h2 : ∀ e ∈ c.war_scores, e.1 ∈ c.at_war_with) :
    ∀ k, c.is_at_war_with k = dmem c.war_scores k := by
  intro k
  cases hA : c.is_at_war_with k
  · cases hB : dmem c.war_scores k
    · rfl
    · obtain ⟨e, he, hek⟩ := (dmem_true_iff _ _).mp hB
      have hmem := h2 e he
      rw [hek] at hmem
      have hnot : k ∉ c.at_war_with := by
        simpa [Country.is_at_war_with] using hA
      exact absurd hmem hnot
  · have hk : k ∈ c.at_war_with := by
      simpa [Country.is_at_war_with] using hA
    rw [h1 k hk]

theorem declare_war_is_char (cs : List (String × Country)) (a b : String)
    (ca0 cb0 : Country) (hA : dget cs a = some ca0) (hB : dget cs b = some cb0) :
    ∀ k c', dget (DiplomacySystem.declare_war cs a b).1 k = some c' →
      ∃ c, dget cs k = some c ∧ ∀ y,
        c'.is_at_war_with y =
          (c.is_at_war_with y || (decide (k = a) && decide (y = b))
            || (decide (k = b) && decide (y = a))) := by
  intro k c' h
  have hres : (DiplomacySystem.declare_war cs a b).1 =
      dmodify (dmodify cs a (fun c => c.declare_war b)) b (fun c => c.declare_war a) := by
    simp [DiplomacySystem.declare_war, hA, hB]
  rw [hres] at h
  simp only [dget_dmodify] at h
  by_cases hkb : k = b
  · by_cases hba : b = a
    · rw [if_pos hkb, if_pos hba, hA] at h
      simp only [Option.map_map, Option.map_some', Option.some.injEq] at h
      refine ⟨ca0, by rw [hkb, hba]; exact hA, fun y => ?_⟩
      rw [← h]
      simp [is_at_war_with_declare_war, hkb, hba, Bool.or_assoc]
    · rw [if_pos hkb, if_neg hba, hB] at h
      simp only [Option.map_some', Option.some.injEq] at h
      have hka : ¬ k = a := fun hx => hba ((hkb.symm.trans hx))
      refine ⟨cb0, by rw [hkb]; exact hB, fun y => ?_⟩
      rw [← h]
      simp [is_at_war_with_declare_war, hkb, hka, hba]
  · by_cases hka : k = a
    · rw [if_neg hkb, if_pos hka, hA] at h
      simp only [Option.map_some', Option.some.injEq] at h
      refine ⟨ca0, by rw [hka]; exact hA, fun y => ?_⟩
      rw [← h]
      have hab : ¬ a = b := fun hx => hkb (hka.trans hx)
      simp [is_at_war_with_declare_war, hka, hkb, hab]
    · rw [if_neg hkb, if_neg hka] at h
      refine ⟨c', h, fun y => ?_⟩
      simp [hka, hkb]

theorem make_peace_is_char (cs : List (String × Country)) (a b : String)
    (ca0 cb0 : Country) (hA : dget cs a = some ca0) (hB : dget cs b = some cb0)
    (hWF : ∀ k c, dget cs k = some c → c.at_war_with.Nodup) :
    ∀ k c', dget (DiplomacySystem.make_peace cs a b) k = some c' →
      ∃ c, dget cs k = some c ∧ ∀ y,
        c'.is_at_war_with y =
          (c.is_at_war_with y && !(decide (k = a) && decide (y = b))
            && !(decide (k = b) && decide (y = a))) := by
  intro k c' h
  have hres : DiplomacySystem.make_peace cs a b =
      dmodify (dmodify cs a (fun c => c.make_peace b)) b (fun c => c.make_peace a) := by
    simp [DiplomacySystem.make_peace, hA, hB]
  rw [hres] at h
  simp only [dget_dmodify] at h
  by_cases hkb : k = b
  · by_cases hba : b = a
    · rw [if_pos hkb, if_pos hba, hA] at h
      simp only [Option.map_map, Option.map_some', Option.some.injEq] at h
      refine ⟨ca0, by rw [hkb, hba]; exact hA, fun y => ?_⟩
      rw [← h]
      have hnd := hWF a ca0 hA
      rw [is_at_war_with_make_peace _ _ _ (nodup_at_war_make_peace ca0 b hnd),
        is_at_war_with_make_peace _ _ _ hnd]
      simp [hkb, hba, Bool.and_assoc]
    · rw [if_pos hkb, if_neg hba, hB] at h
      simp only [Option.map_some', Option.some.injEq] at h
      have hka : ¬ k = a := fun hx => hba ((hkb.symm.trans hx))
      refine ⟨cb0, by rw [hkb]; exact hB, fun y => ?_⟩
      rw [← h, is_at_war_with_make_peace _ _ _ (hWF b cb0 hB)]
      simp [hkb, hka, hba]
  · by_cases hka : k = a
    · rw [if_neg hkb, if_pos hka, hA] at h
      simp only [Option.map_some', Option.some.injEq] at h
      refine ⟨ca0, by rw [hka]; exact hA, fun y => ?_⟩
      rw [← h, is_at_war_with_make_peace _ _ _ (hWF a ca0 hA)]
      have hab : ¬ a = b := fun hx => hkb (hka.trans hx)
      simp [hka, hkb, hab]
    · rw [if_neg hkb, if_neg hka] at h
      refine ⟨c', h, fun y => ?_⟩
      simp [hka, hkb]

/-- C7: in a well-formed registry (no duplicate at-war entries) the symmetry
of the war relation is preserved by `declare_war` and by `make_peace`, and
`make_peace` between two known mutually consistent countries removes each
from the other's at-war set and deletes both war-score entries. -/
theorem war_symmetry_invariant (cs : List (String × Country)) (a b : String)
    (hWF : ∀ k c, dget cs k = some c → c.at_war_with.Nodup)
    (hsym : warSym cs) :
    warSym (DiplomacySystem.declare_war cs a b).1 ∧
    warSym (DiplomacySystem.make_peace cs a b) ∧
    (∀ ca cb, a ≠ b → dget cs a = some ca → dget cs b = some cb →
      (∀ k, ca.is_at_war_with k = dmem ca.war_scores k) →
      (∀ k, cb.is_at_war_with k = dmem cb.war_scores k) →
      dget (DiplomacySystem.make_peace cs a b) a = some (ca.make_peace b) ∧
      dget (DiplomacySystem.make_peace cs a b) b = some (cb.make_peace a) ∧
      (ca.make_peace b).is_at_war_with b = false ∧
      (cb.make_peace a).is_at_war_with a = false ∧
      dget (ca.make_peace b).war_scores b = none ∧
      dget (cb.make_peace a).war_scores a = none) := by
  refine ⟨?_, ?_, ?_⟩
  · rcases hA : dget cs a with _ | ca0
    · have : (DiplomacySystem.declare_war cs a b).1 = cs := by
        simp [DiplomacySystem.declare_war, hA]
      rw [this]; exact hsym
    rcases hB : dget cs b with _ | cb0
    · have : (DiplomacySystem.declare_war cs a b).1 = cs := by
        simp [DiplomacySystem.declare_war, hA, hB]
      rw [this]; exact hsym
    intro ka kb ca' cb' h1 h2
    obtain ⟨ca1, hca1, hfa⟩ := declare_war_is_char cs a b ca0 cb0 hA hB ka ca' h1
    obtain ⟨cb1, hcb1, hfb⟩ := declare_war_is_char cs a b ca0 cb0 hA hB kb cb' h2
    rw [hfa kb, hfb ka, hsym ka kb ca1 cb1 hca1 hcb1]
    cases hx : cb1.is_at_war_with ka <;>
      cases h1a : decide (ka = a) <;> cases h2b : decide (kb = b) <;>
      cases h1b : decide (ka = b) <;> cases h2a : decide (kb = a) <;> rfl
  · rcases hA : dget cs a with _ | ca0
    · have : DiplomacySystem.make_peace cs a b = cs := by
        simp [DiplomacySystem.make_peace, hA]
      rw [this]; exact hsym
    rcases hB : dget cs b with _ | cb0
    · have : DiplomacySystem.make_peace cs a b = cs := by
        simp [DiplomacySystem.make_peace, hA, hB]
      rw [this]; exact hsym
    intro ka kb ca' cb' h1 h2
    obtain ⟨ca1, hca1, hfa⟩ := make_peace_is_char cs a b ca0 cb0 hA hB hWF ka ca' h1
    obtain ⟨cb1, hcb1, hfb⟩ := make_peace_is_char cs a b ca0 cb0 hA hB hWF kb cb' h2
    rw [hfa kb, hfb ka, hsym ka kb ca1 cb1 hca1 hcb1]
    cases hx : cb1.is_at_war_with ka <;>
      cases h1a : decide (ka = a) <;> cases h2b : decide (kb = b) <;>
      cases h1b : decide (ka = b) <;> cases h2a : decide (kb = a) <;> rfl
  · intro ca cb hne hA hB hconsA hconsB
    have hba : ¬ b = a := fun h => hne h.symm
    have hres : DiplomacySystem.make_peace cs a b =
        dmodify (dmodify cs a (fun c => c.make_peace b)) b (fun c => c.make_peace a) := by
      simp [DiplomacySystem.make_peace, hA, hB]
    have hga : dget (DiplomacySystem.make_peace cs a b) a = some (ca.make_peace b) := by
      rw [hres]
      simp [dget_dmodify, hne, hA]
    have hgb : dget (DiplomacySystem.make_peace cs a b) b = some (cb.make_peace a) := by
      rw [hres]
      simp [dget_dmodify, hba, hB]
    refine ⟨hga, hgb, ?_, ?_, ?_, ?_⟩
    · rw [is_at_war_with_make_peace _ _ _ (hWF a ca hA)]
      simp
    · rw [is_at_war_with_make_peace _ _ _ (hWF b cb hB)]
      simp
    · exact war_scores_make_peace_self ca b (fun h => by rw [← hconsA b]; exact h)
    · exact war_scores_make_peace_self cb a (fun h => by rw [← hconsB a]; exact h)

/-- C7 witness: on the registry holding the Germany/France war, symmetry is
preserved by a declaration and `make_peace` clears both directions and both
score entries. -/
theorem war_symmetry_invariant_witness :
    warSym (DiplomacySystem.declare_war warPair "GER" "FRA").1 ∧
    dget (DiplomacySystem.make_peace warPair "GER" "FRA") "GER" =
      some (gerAtWar.make_peace "FRA") ∧
    (gerAtWar.make_peace "FRA").is_at_war_with "FRA" = false ∧
    (fraAtWar.make_peace "GER").is_at_war_with "GER" = false ∧
    dget (gerAtWar.make_peace "FRA").war_scores "FRA" = none ∧
    dget (fraAtWar.make_peace "GER").war_scores "GER" = none := by
  have hWF : ∀ k c, dget warPair k = some c → c.at_war_with.Nodup := by
    intro k c h
    have hm := dget_mem h
    have : ∀ e ∈ warPair, (e.2 : Country).at_war_with.Nodup := by decide
    exact this _ hm
  have hsym : warSym warPair := by
    apply warSym_of_forall_mem
    decide
  have H := war_symmetry_invariant warPair "GER" "FRA" hWF hsym
  have hconsG : ∀ k, gerAtWar.is_at_war_with k = dmem gerAtWar.war_scores k := by
    apply cons_scores_of_lists <;> decide
  have hconsF : ∀ k, fraAtWar.is_at_war_with k = dmem fraAtWar.war_scores k := by
    apply cons_scores_of_lists <;> decide
  have H3 := H.2.2 gerAtWar fraAtWar (by decide) (by simp [warPair, dget])
    (by simp [warPair, dget]) hconsG hconsF
  exact ⟨H.1, H3.1, H3.2.2.1, H3.2.2.2.1, H3.2.2.2.2.1, H3.2.2.2.2.2⟩

/-! ### C4: defender victory award -/

/-- C4 (over the spec-modelled defender branch; the shipped line is a
SyntaxError): when a battle has a first attacker and a first defender (both
nonempty codes) and the defending country is registered with a war-score
entry for the attacker holding s, ending the battle with the defenders
victorious leaves every other registry entry unchanged and sets the
defender's score against the attacker to min 100 (s + 2) — an increase of
exactly 2, capped so the result never exceeds 100.  The branch touches no
province, so ownership is unchanged. -/
theorem end_battle_defender_awards_two (cs : List (String × Country)) (battle : Battle)
    (atk dfd : String) (cd : Country) (s : ℤ)
    (hA : battle.attackers.head? = some atk) (hD : battle.defenders.head? = some dfd)
    (hatk : atk ≠ "") (hdfd : dfd ≠ "")
    (hc : dget cs dfd = some cd) (hs : dget cd.war_scores atk = some s) :
    ∃ cd', dget (CombatSystem.end_battle_defenders_won cs battle) dfd = some cd' ∧
      dget cd'.war_scores atk = some (min 100 (s + 2)) ∧
      min 100 (s + 2) ≤ 100 ∧
      (∀ k, k ≠ dfd →
        dget (CombatSystem.end_battle_defenders_won cs battle) k = dget cs k) := by
  have hmem : dmem cd.war_scores atk = true := by
    rw [dmem_eq_isSome, hs]
    rfl
  have hres : CombatSystem.end_battle_defenders_won cs battle =
      CombatSystem.award_war_score cs dfd atk 2 := by
    rw [CombatSystem.end_battle_defenders_won, hA, hD]
    simp [hatk, hdfd]
  have haward : CombatSystem.award_war_score cs dfd atk 2 =
      dmodify cs dfd (fun c =>
        let s2 := min 100 ((dget c.war_scores atk).getD 0 + 2)
        { c with war_scores := dset c.war_scores atk s2 }) := by
    rw [CombatSystem.award_war_score, hc]
    simp [hmem]
  refine ⟨{ cd with war_scores := dset cd.war_scores atk (min 100 ((dget cd.war_scores atk).getD 0 + 2)) }, ?_, ?_, ?_, ?_⟩
  · rw [hres, haward]
    simp [dget_dmodify, hc]
  · simp [dget_dset, hs]
  · exact min_le_left _ _
  · intro k hk
    rw [hres, haward]
    simp [dget_dmodify, hk]

/-- C4 witness: Germany attacked France in province 1 and lost every unit;
France (score 50 against Germany) is awarded 2 points, landing on 52, with
the German registry entry untouched. -/
theorem end_battle_defender_awards_two_witness :
    ∃ cd', dget (CombatSystem.end_battle_defenders_won warPair defBattle) "FRA" = some cd' ∧
      dget cd'.war_scores "GER" = some (min 100 (50 + 2)) ∧
      min 100 ((50 : ℤ) + 2) ≤ 100 ∧
      (∀ k, k ≠ "FRA" →
        dget (CombatSystem.end_battle_defenders_won warPair defBattle) k = dget warPair k) :=
  end_battle_defender_awards_two warPair defBattle "GER" "FRA" fraAtWar 50
    (by rfl) (by rfl) (by decide) (by decide)
    (by simp [warPair, dget]) (by simp [fraAtWar, dget])

/-! ### C5: forced peace at war score 100 -/

theorem dget_of_mem_nodup {κ β : Type} [DecidableEq κ] {d : List (κ × β)}
    (hn : (d.map Prod.fst).Nodup) {e : κ × β} (he : e ∈ d) : dget d e.1 = some e.2 := by
  induction d with
  | nil => cases he
  | cons x r ih =>
    rw [List.mem_cons] at he
    rcases he with he | he
    · rw [he]
      simp [dget]
    · have hxk : ¬ x.1 = e.1 := by
        intro hx
        have hmm : e.1 ∈ r.map Prod.fst := List.mem_map_of_mem Prod.fst he
        rw [← hx] at hmm
        exact (List.nodup_cons.mp hn).1 hmm
      rw [dget, if_neg hxk]
      exact ih (List.nodup_cons.mp hn).2 he

theorem split_of_dget_nodup {κ β : Type} [DecidableEq κ] {d : List (κ × β)}
    (hn : (d.map Prod.fst).Nodup) {k : κ} {v : β} (h : dget d k = some v) :
    ∃ l1 l2, d = l1 ++ (k, v) :: l2 ∧ (∀ e ∈ l1, e.1 ≠ k) ∧ (∀ e ∈ l2, e.1 ≠ k) := by
  induction d with
  | nil => simp [dget] at h
  | cons x r ih =>
    by_cases hx : x.1 = k
    · rw [dget, if_pos hx] at h
      simp only [Option.some.injEq] at h
      refine ⟨[], r, ?_, by simp, ?_⟩
      · have hxv : x = (k, v) := Prod.ext hx h
        rw [hxv]
        rfl
      · intro e he hek
        have hk : k ∈ r.map Prod.fst := by
          rw [← hek]
          exact List.mem_map_of_mem Prod.fst he
        rw [← hx] at hk
        exact (List.nodup_cons.mp hn).1 hk
    · rw [dget, if_neg hx] at h
      obtain ⟨l1, l2, heq, h1, h2⟩ := ih (List.nodup_cons.mp hn).2 h
      refine ⟨x :: l1, l2, by rw [heq]; rfl, ?_, h2⟩
      intro e he
      rw [List.mem_cons] at he
      rcases he with he | he
      · rw [he]; exact hx
      · exact h1 e he

theorem exists_split_first {α : Type} [DecidableEq α] {x : α} :
    ∀ {l : List α}, x ∈ l → ∃ l1 l2, l = l1 ++ x :: l2 ∧ x ∉ l1 := by
  intro l h
  induction l with
  | nil => cases h
  | cons y ys ih =>
    by_cases hxy : x = y
    · exact ⟨[], ys, by rw [hxy]; rfl, by simp⟩
    · rw [List.mem_cons] at h
      have hmem : x ∈ ys := by
        rcases h with h | h
        · exact absurd h hxy
        · exact h
      obtain ⟨l1, l2, heq, hn⟩ := ih hmem
      refine ⟨y :: l1, l2, by rw [heq]; rfl, ?_⟩
      simp only [List.mem_cons, not_or]
      exact ⟨hxy, hn⟩

theorem mem_war_scores_make_peace {c : Country} {x : String} {e : String × ℤ}
    (h : e ∈ (c.make_peace x).war_scores) : e ∈ c.war_scores := by
  rw [Country.make_peace] at h
  split at h
  · split at h
    · exact List.mem_of_mem_filter h
    · exact h
  · exact h

theorem war_scores_make_peace_of_at_war (c : Country) (x : String)
    (h : x ∈ c.at_war_with) : dget (c.make_peace x).war_scores x = none := by
  by_cases hm : dmem c.war_scores x
  · simp [Country.make_peace, h, hm, dget_ddel]
  · have hnone : (dget c.war_scores x).isSome = false := by
      rw [← dmem_eq_isSome]
      exact eq_false_of_ne_true hm
    simp [Country.make_peace, h, hm]
    exact Option.not_isSome_iff_eq_none.mp (by simp [hnone])

theorem auto_peace_enemy_cold (w : World) (a : String) (e : String × ℤ)
    (h : e.2 < 100) : DiplomacySystem.auto_peace_enemy w a e = w := by
  rw [DiplomacySystem.auto_peace_enemy, if_neg (by omega)]

theorem inner_fold_cold (a : String) :
    ∀ (l : List (String × ℤ)) (w : World), (∀ e ∈ l, e.2 < 100) →
      l.foldl (fun w e => DiplomacySystem.auto_peace_enemy w a e) w = w := by
  intro l
  induction l with
  | nil => intro w _; rfl
  | cons e r ih =>
    intro w h
    rw [List.foldl_cons, auto_peace_enemy_cold w a e (h e (by simp))]
    exact ih w (fun e' he' => h e' (List.mem_cons_of_mem _ he'))

theorem auto_peace_country_cold (w : World) (k : String)
    (h : ∀ c, dget w.countries k = some c → ∀ e ∈ c.war_scores, e.2 < 100) :
    DiplomacySystem.auto_peace_country w k = w := by
  rw [DiplomacySystem.auto_peace_country]
  rcases hk : dget w.countries k with _ | c
  · rfl
  · exact inner_fold_cold k c.war_scores w (h c hk)

theorem outer_fold_cold :
    ∀ (ks : List String) (w : World),
      (∀ k c, dget w.countries k = some c → ∀ e ∈ c.war_scores, e.2 < 100) →
      ks.foldl DiplomacySystem.auto_peace_country w = w := by
  intro ks
  induction ks with
  | nil => intro w _; rfl
  | cons k r ih =>
    intro w h
    rw [List.foldl_cons, auto_peace_country_cold w k (h k)]
    exact ih w h

theorem exec_annex_list (winner loser : String) (mk : Province → PeaceDemand)
    (hmk1 : ∀ p, (mk p).demand_type = "annex_province")
    (hmk2 : ∀ p, (mk p).target_data = TargetData.pid p.province_id) :
    ∀ (ps : List Province) (w : World),
      (ps.map (fun p => p.province_id)).Nodup →
      (∀ p ∈ ps, dget w.provinces p.province_id = some p ∧ p.owner = some loser) →
      (DiplomacySystem.execute_demands_list w winner loser (ps.map mk)).countries
        = w.countries ∧
      (∀ p ∈ ps,
        dget (DiplomacySystem.execute_demands_list w winner loser (ps.map mk)).provinces
          p.province_id = some { p with owner := some winner }) ∧
      (∀ i, i ∉ ps.map (fun p => p.province_id) →
        dget (DiplomacySystem.execute_demands_list w winner loser (ps.map mk)).provinces i
          = dget w.provinces i) := by
  intro ps
  induction ps with
  | nil => exact fun w _ _ => ⟨rfl, by simp, fun i _ => rfl⟩
  | cons p ps ih =>
    intro w hnd hps
    have hp := hps p (by simp)
    have hstep : DiplomacySystem.execute_demand w winner loser (mk p) =
        { w with provinces :=
            dmodify w.provinces p.province_id (fun q => { q with owner := some winner }) } := by
      simp [DiplomacySystem.execute_demand, hmk1 p, hmk2 p, hp.1, hp.2]
    have hpid_not : p.province_id ∉ ps.map (fun q => q.province_id) :=
      (List.nodup_cons.mp (by simpa using hnd)).1
    have hrest : ∀ q ∈ ps,
        dget (DiplomacySystem.execute_demand w winner loser (mk p)).provinces q.province_id
          = some q ∧ q.owner = some loser := by
      intro q hq
      have hqp : q.province_id ≠ p.province_id := by
        intro hx
        exact hpid_not (hx ▸ List.mem_map_of_mem _ hq)
      rw [hstep]
      refine ⟨?_, (hps q (List.mem_cons_of_mem _ hq)).2⟩
      simp only [dget_dmodify, if_neg hqp]
      exact (hps q (List.mem_cons_of_mem _ hq)).1
    have hfold : DiplomacySystem.execute_demands_list w winner loser ((p :: ps).map mk) =
        DiplomacySystem.execute_demands_list
          (DiplomacySystem.execute_demand w winner loser (mk p)) winner loser (ps.map mk) := by
      rw [List.map_cons, DiplomacySystem.execute_demands_list, List.foldl_cons]
      rfl
    obtain ⟨ihc, ihin, ihout⟩ := ih (DiplomacySystem.execute_demand w winner loser (mk p))
      (List.nodup_cons.mp (by simpa using hnd)).2 hrest
    rw [hfold]
    refine ⟨?_, ?_, ?_⟩
    · rw [ihc, hstep]
    · intro q hq
      rw [List.mem_cons] at hq
      rcases hq with hq | hq
      · rw [hq]
        rw [ihout p.province_id hpid_not, hstep]
        simp only [dget_dmodify, if_pos rfl, hp.1]
        rfl
      · exact ihin q hq
    · intro i hi
      simp only [List.map_cons, List.mem_cons, not_or] at hi
      rw [ihout i hi.2, hstep]
      simp only [dget_dmodify, if_neg hi.1]

theorem auto_peace_enemy_hot (w : World) (a b : String) (cb : Country) (s : ℤ)
    (hs100 : 100 ≤ s) (hb : dget w.countries b = some cb)
    (hpid : ∀ e ∈ w.provinces, (e.2 : Province).province_id = e.1)
    (hpnodup : (w.provinces.map Prod.fst).Nodup) :
    (DiplomacySystem.auto_peace_enemy w a (b, s)).countries =
      DiplomacySystem.make_peace w.countries a b ∧
    (∀ i p0, dget w.provinces i = some p0 →
      dget (DiplomacySystem.auto_peace_enemy w a (b, s)).provinces i =
        some (if p0.owner = some b then { p0 with owner := some a } else p0)) := by
  have hvals : (w.provinces.map Prod.snd).map (fun p => p.province_id)
      = w.provinces.map Prod.fst := by
    rw [List.map_map]
    exact List.map_congr_left (fun e he => hpid e he)
  have hps_mem : ∀ p ∈ (w.provinces.map Prod.snd).filter (fun p => p.owner = some b),
      dget w.provinces p.province_id = some p ∧ p.owner = some b := by
    intro p hp
    rw [List.mem_filter] at hp
    obtain ⟨e, he, hev⟩ := List.mem_map.mp hp.1
    have hkey := hpid e he
    rw [hev] at hkey
    constructor
    · rw [hkey]
      have := dget_of_mem_nodup hpnodup he
      rw [hev] at this
      exact this
    · exact of_decide_eq_true hp.2
  have hps_nodup :
      (((w.provinces.map Prod.snd).filter (fun p => p.owner = some b)).map
        (fun p => p.province_id)).Nodup := by
    have hsub : List.Sublist
        (((w.provinces.map Prod.snd).filter (fun p => p.owner = some b)).map
          (fun p => p.province_id))
        ((w.provinces.map Prod.snd).map (fun p => p.province_id)) :=
      List.Sublist.map _ (List.filter_sublist _)
    rw [hvals] at hsub
    exact List.Nodup.sublist hsub hpnodup
  have hexec := exec_annex_list a b
    (fun p => DiplomacySystem.create_peace_demand w.provinces "annex_province"
      (TargetData.pid p.province_id))
    (fun p => rfl) (fun p => rfl)
    ((w.provinces.map Prod.snd).filter (fun p => p.owner = some b)) w hps_nodup hps_mem
  have hres : DiplomacySystem.auto_peace_enemy w a (b, s) =
      { DiplomacySystem.execute_demands_list w a b
          (((w.provinces.map Prod.snd).filter (fun p => p.owner = some b)).map
            (fun p => DiplomacySystem.create_peace_demand w.provinces "annex_province"
              (TargetData.pid p.province_id))) with
        countries := DiplomacySystem.make_peace
          (DiplomacySystem.execute_demands_list w a b
            (((w.provinces.map Prod.snd).filter (fun p => p.owner = some b)).map
              (fun p => DiplomacySystem.create_peace_demand w.provinces "annex_province"
                (TargetData.pid p.province_id)))).countries a b } := by
    rw [DiplomacySystem.auto_peace_enemy, if_pos (by simpa using hs100)]
    simp only [hb]
  constructor
  · rw [hres]
    have : (DiplomacySystem.execute_demands_list w a b
        (((w.provinces.map Prod.snd).filter (fun p => p.owner = some b)).map
          (fun p => DiplomacySystem.create_peace_demand w.provinces "annex_province"
            (TargetData.pid p.province_id)))).countries = w.countries := hexec.1
    simp only [this]
  · intro i p0 hi
    rw [hres]
    by_cases hown : p0.owner = some b
    · have hmem_entry := dget_mem hi
      have hval : p0 ∈ w.provinces.map Prod.snd := List.mem_map_of_mem Prod.snd hmem_entry
      have hpsmem : p0 ∈ (w.provinces.map Prod.snd).filter (fun p => p.owner = some b) := by
        rw [List.mem_filter]
        exact ⟨hval, by simp [hown]⟩
      have hkey : p0.province_id = i := by
        have := hpid _ hmem_entry
        simpa using this
      have := hexec.2.1 p0 hpsmem
      rw [hkey] at this
      simp only [this, if_pos hown, hkey]
    · have hnotin : i ∉ ((w.provinces.map Prod.snd).filter
          (fun p => p.owner = some b)).map (fun p => p.province_id) := by
        intro hin
        obtain ⟨q, hq, hqi⟩ := List.mem_map.mp hin
        have hdq := (hps_mem q hq).1
        rw [hqi, hi] at hdq
        have : q = p0 := by
          simpa using hdq.symm
        rw [this] at hq
        rw [List.mem_filter] at hq
        exact hown (of_decide_eq_true hq.2)
      have := hexec.2.2 i hnotin
      simp only [this, hi, if_neg hown]

theorem outer_fold_ne (a : String) :
    ∀ (ks : List String) (w : World),
      (∀ k ∈ ks, k ≠ a) →
      (∀ k c, k ≠ a → dget w.countries k = some c → ∀ e ∈ c.war_scores, e.2 < 100) →
      ks.foldl DiplomacySystem.auto_peace_country w = w := by
  intro ks
  induction ks with
  | nil => intro w _ _; rfl
  | cons k r ih =>
    intro w hne hcold
    rw [List.foldl_cons,
      auto_peace_country_cold w k (fun c hc => hcold k c (hne k (by simp)) hc)]
    exact ih w (fun k' hk' => hne k' (List.mem_cons_of_mem _ hk')) hcold

theorem mem_war_scores_make_peace_ne {c : Country} {x : String} {e : String × ℤ}
    (hat : x ∈ c.at_war_with) (hdm : dmem c.war_scores x = true)
    (he : e ∈ (c.make_peace x).war_scores) : e.1 ≠ x := by
  simp [Country.make_peace, hat, hdm, ddel, List.mem_filter] at he
  exact he.2

theorem auto_peace_country_hot (w : World) (a b : String) (ca : Country) (s : ℤ)
    (ha : dget w.countries a = some ca)
    (hs : dget ca.war_scores b = some s)
    (hscnd : (ca.war_scores.map Prod.fst).Nodup)
    (huniqa : ∀ e ∈ ca.war_scores, 100 ≤ e.2 → e.1 = b) :
    DiplomacySystem.auto_peace_country w a = DiplomacySystem.auto_peace_enemy w a (b, s) := by
  have hred : DiplomacySystem.auto_peace_country w a =
      List.foldl (fun w e => DiplomacySystem.auto_peace_enemy w a e) w ca.war_scores := by
    simp [DiplomacySystem.auto_peace_country, ha]
  rw [hred]
  obtain ⟨l1, l2, hsplit, hk1, hk2⟩ := split_of_dget_nodup hscnd hs
  have hc1 : ∀ e ∈ l1, e.2 < 100 := by
    intro e he
    by_contra hge
    push_neg at hge
    exact hk1 e he (huniqa e (by rw [hsplit]; exact List.mem_append_left _ he) hge)
  have hc2 : ∀ e ∈ l2, e.2 < 100 := by
    intro e he
    by_contra hge
    push_neg at hge
    exact hk2 e he (huniqa e
      (by rw [hsplit]; exact List.mem_append_right _ (List.mem_cons_of_mem _ he)) hge)
  rw [hsplit, List.foldl_append, inner_fold_cold a l1 w hc1, List.foldl_cons]
  exact inner_fold_cold a l2 _ hc2

/-- C5 (amended): in a well-formed registry (keys and score dicts duplicate
free, province keys matching their stored ids) where A and B are known,
mutually at war, and A's score of s ≥ 100 against B is the only war score at
or above 100 anywhere, one invocation of `auto_peace_at_100` transfers every
province still owned by B to A (leaving all other provinces untouched),
replaces A and B by their `make_peace` results leaving all other countries
untouched, and afterwards neither lists the other as at war and both war
score entries are gone.  Without the uniqueness hypothesis the claim is
false: with mutual 100 scores the country processed first annexes and makes
peace, and the claim's transfer to the other country never happens. -/
theorem auto_peace_at_100_correct (w : World) (a b : String) (ca cb : Country) (s : ℤ)
    (hab : a ≠ b)
    (ha : dget w.countries a = some ca) (hb : dget w.countries b = some cb)
    (hs : dget ca.war_scores b = some s) (hs100 : 100 ≤ s)
    (hwa : b ∈ ca.at_war_with) (hwb : a ∈ cb.at_war_with)
    (hnodA : ca.at_war_with.Nodup) (hnodB : cb.at_war_with.Nodup)
    (hscnd : (ca.war_scores.map Prod.fst).Nodup)
    (hpid : ∀ e ∈ w.provinces, (e.2 : Province).province_id = e.1)
    (hpnodup : (w.provinces.map Prod.fst).Nodup)
    (huniq : ∀ k c, dget w.countries k = some c →
      ∀ e ∈ c.war_scores, 100 ≤ e.2 → k = a ∧ e.1 = b) :
    (∀ i p0, dget w.provinces i = some p0 →
      dget (DiplomacySystem.auto_peace_at_100 w).provinces i =
        some (if p0.owner = some b then { p0 with owner := some a } else p0)) ∧
    dget (DiplomacySystem.auto_peace_at_100 w).countries a = some (ca.make_peace b) ∧
    dget (DiplomacySystem.auto_peace_at_100 w).countries b = some (cb.make_peace a) ∧
    (∀ k, k ≠ a → k ≠ b →
      dget (DiplomacySystem.auto_peace_at_100 w).countries k = dget w.countries k) ∧
    (ca.make_peace b).is_at_war_with b = false ∧
    (cb.make_peace a).is_at_war_with a = false ∧
    dget (ca.make_peace b).war_scores b = none ∧
    dget (cb.make_peace a).war_scores a = none := by
  have hba : ¬ b = a := fun h => hab h.symm
  obtain ⟨hTc, hTp⟩ := auto_peace_enemy_hot w a b cb s hs100 hb hpid hpnodup
  have hstep := auto_peace_country_hot w a b ca s ha hs hscnd
    (fun e he hge => (huniq a ca ha e he hge).2)
  have hmp : DiplomacySystem.make_peace w.countries a b =
      dmodify (dmodify w.countries a (fun c => c.make_peace b)) b
        (fun c => c.make_peace a) := by
    simp [DiplomacySystem.make_peace, ha, hb]
  have hga : dget (DiplomacySystem.make_peace w.countries a b) a =
      some (ca.make_peace b) := by
    rw [hmp]
    simp [dget_dmodify, hab, ha]
  have hgb : dget (DiplomacySystem.make_peace w.countries a b) b =
      some (cb.make_peace a) := by
    rw [hmp]
    simp [dget_dmodify, hba, hb]
  have hgo : ∀ k, k ≠ a → k ≠ b →
      dget (DiplomacySystem.make_peace w.countries a b) k = dget w.countries k := by
    intro k hka hkb
    rw [hmp]
    simp [dget_dmodify, hka, hkb]
  have hdm : dmem ca.war_scores b = true := by
    rw [dmem_eq_isSome, hs]
    rfl
  have hcoldT : ∀ k c', dget (DiplomacySystem.auto_peace_enemy w a (b, s)).countries k
      = some c' → ∀ e ∈ c'.war_scores, e.2 < 100 := by
    intro k c' hk e he
    rw [hTc] at hk
    by_cases hkb : k = b
    · rw [hkb, hgb] at hk
      have hval : c' = cb.make_peace a := by
        simpa using hk.symm
      rw [hval] at he
      by_contra hge
      push_neg at hge
      have := huniq b cb hb e (mem_war_scores_make_peace he) hge
      exact hba this.1
    · by_cases hka : k = a
      · rw [hka, hga] at hk
        have hval : c' = ca.make_peace b := by
          simpa using hk.symm
        rw [hval] at he
        by_contra hge
        push_neg at hge
        have hbb := (huniq a ca ha e (mem_war_scores_make_peace he) hge).2
        exact mem_war_scores_make_peace_ne hwa hdm he hbb
      · rw [hgo k hka hkb] at hk
        by_contra hge
        push_neg at hge
        exact hka (huniq k c' hk e he hge).1
  have hmem_a : a ∈ w.countries.map Prod.fst :=
    List.mem_map_of_mem Prod.fst (dget_mem ha)
  obtain ⟨k1, k2, hksplit, hnot1⟩ := exists_split_first hmem_a
  have hfold : DiplomacySystem.auto_peace_at_100 w =
      DiplomacySystem.auto_peace_enemy w a (b, s) := by
    rw [DiplomacySystem.auto_peace_at_100, hksplit, List.foldl_append, List.foldl_cons]
    have hpre : List.foldl DiplomacySystem.auto_peace_country w k1 = w := by
      refine outer_fold_ne a k1 w (fun k hk hka => hnot1 (hka ▸ hk)) ?_
      intro k c hkne hc e he
      by_contra hge
      push_neg at hge
      exact hkne (huniq k c hc e he hge).1
    rw [hpre, hstep]
    exact outer_fold_cold k2 _ hcoldT
  rw [hfold]
  refine ⟨hTp, ?_, ?_, ?_, ?_, ?_, ?_, ?_⟩
  · rw [hTc]; exact hga
  · rw [hTc]; exact hgb
  · intro k hka hkb
    rw [hTc]
    exact hgo k hka hkb
  · rw [is_at_war_with_make_peace _ _ _ hnodA]
    simp
  · rw [is_at_war_with_make_peace _ _ _ hnodB]
    simp
  · exact war_scores_make_peace_of_at_war ca b hwa
  · exact war_scores_make_peace_of_at_war cb a hwb

/-- C5 counterexample: Germany and France both hold a 100 war score against
the other, France is registered first and owns province 1.  The claim
instance A = GER, B = FRA satisfies every premise of the claim (A's score
against B is ≥ 100, B owns a province), yet after one `auto_peace_at_100`
France — processed first — makes peace before Germany is reached, so
province 1 is never transferred to Germany. -/
theorem auto_peace_mutual_counterexample :
    dget mutualWorld.countries "GER" = some mutualGer ∧
    dget mutualGer.war_scores "FRA" = some 100 ∧
    "FRA" ∈ mutualGer.at_war_with ∧ "GER" ∈ mutualFra.at_war_with ∧
    dget mutualWorld.provinces 1 = some fraProvince ∧
    fraProvince.owner = some "FRA" ∧
    dget (DiplomacySystem.auto_peace_at_100 mutualWorld).provinces 1 = some fraProvince ∧
    fraProvince.owner ≠ some "GER" := by
  refine ⟨by simp [mutualWorld, dget], by simp [mutualGer, dget], by decide, by decide,
    by simp [mutualWorld, dget], by decide, ?_, by decide⟩
  simp [DiplomacySystem.auto_peace_at_100, DiplomacySystem.auto_peace_country,
    DiplomacySystem.auto_peace_enemy, DiplomacySystem.execute_demands_list,
    DiplomacySystem.make_peace, DiplomacySystem.create_peace_demand,
    DiplomacySystem.calculate_demand_cost, Country.make_peace,
    mutualWorld, mutualFra, mutualGer, fraProvince, dget, dmodify, dmem, ddel]

/-- C5 witness: Germany holds the only 100 score, against France, which owns
province 1; the forced peace hands the province to Germany, and the
war-score entry is deleted. -/
theorem auto_peace_at_100_witness :
    dget (DiplomacySystem.auto_peace_at_100 hotWorld).provinces 1 =
      some (if fraProvince.owner = some "FRA"
        then { fraProvince with owner := some "GER" } else fraProvince) ∧
    dget (DiplomacySystem.auto_peace_at_100 hotWorld).countries "GER" =
      some (mutualGer.make_peace "FRA") ∧
    dget (mutualGer.make_peace "FRA").war_scores "FRA" = none := by
  have H := auto_peace_at_100_correct hotWorld "GER" "FRA" mutualGer coldFra 100
    (by decide) (by simp [hotWorld, dget]) (by simp [hotWorld, dget])
    (by simp [mutualGer, dget]) (by decide) (by decide) (by decide)
    (by decide) (by decide) (by decide)
    (by decide) (by decide)
    (by
      intro k c hk e he hge
      have H0 : ∀ kc ∈ hotWorld.countries,
          ∀ e ∈ (kc.2 : Country).war_scores, 100 ≤ e.2 → kc.1 = "GER" ∧ e.1 = "FRA" := by
        decide
      exact H0 _ (dget_mem hk) e he hge)
  exact ⟨H.1 1 fraProvince (by simp [hotWorld, dget]), H.2.1, H.2.2.2.2.2.2.1⟩

/-! ### C10: one battle per province -/

theorem has_battle_append_own (battles : List Battle) (pid : ℤ) (a d : String) :
    CombatSystem.has_battle_in_province
      (battles ++ [(⟨pid, [a], [d], 0⟩ : Battle)]) pid = true := by
  simp [CombatSystem.has_battle_in_province]

theorem detect_step_cases (countries : List (String × Country)) (pid : ℤ)
    (battles : List Battle) (pr : String × String) :
    CombatSystem.detect_step countries pid battles pr = battles ∨
    (CombatSystem.has_battle_in_province battles pid = false ∧
      CombatSystem.detect_step countries pid battles pr =
        battles ++ [(⟨pid, [pr.1], [pr.2], 0⟩ : Battle)]) := by
  rcases h1 : dget countries pr.1 with _ | c1
  · left
    simp [CombatSystem.detect_step, h1]
  rcases h2 : dget countries pr.2 with _ | c2
  · left
    simp [CombatSystem.detect_step, h1, h2]
  cases hw : c1.is_at_war_with pr.2
  · left
    simp [CombatSystem.detect_step, h1, h2, hw]
  · cases hb : CombatSystem.has_battle_in_province battles pid
    · right
      refine ⟨rfl, ?_⟩
      simp [CombatSystem.detect_step, h1, h2, hw, hb, CombatSystem.start_battle]
    · left
      simp [CombatSystem.detect_step, h1, h2, hw, hb]

theorem countP_zero_of_no_battle (battles : List Battle) (p : ℤ)
    (h : CombatSystem.has_battle_in_province battles p = false) :
    battles.countP (fun b => decide (b.province_id = p)) = 0 := by
  rw [List.countP_eq_zero]
  intro b hb
  simp [CombatSystem.has_battle_in_province] at h
  simp [h b hb]

theorem detect_battles_province_cases (countries : List (String × Country))
    (units : List Unit) (pid : ℤ) (battles : List Battle) :
    CombatSystem.detect_battles_province countries units pid battles = battles ∨
    (CombatSystem.has_battle_in_province battles pid = false ∧
      ∃ a d, CombatSystem.detect_battles_province countries units pid battles =
        battles ++ [(⟨pid, [a], [d], 0⟩ : Battle)]) := by
  rw [CombatSystem.detect_battles_province]
  by_cases hlen : (MilitarySystem.get_units_in_province units pid).length < 2
  · simp [hlen]
  · simp only [if_neg hlen]
    generalize CombatSystem.ordered_pairs
      (CombatSystem.distinct_owners (MilitarySystem.get_units_in_province units pid)) = prs
    induction prs generalizing battles with
    | nil => exact Or.inl rfl
    | cons pr rest ih =>
      rw [List.foldl_cons]
      rcases detect_step_cases countries pid battles pr with heq | ⟨hno, heq⟩
      · rw [heq]
        exact ih battles
      · rw [heq]
        rcases ih (battles ++ [(⟨pid, [pr.1], [pr.2], 0⟩ : Battle)]) with heq2 | ⟨hfalse, _⟩
        · exact Or.inr ⟨hno, pr.1, pr.2, heq2⟩
        · rw [has_battle_append_own] at hfalse
          cases hfalse

theorem detect_battles_province_preserves (countries : List (String × Country))
    (units : List Unit) (pid : ℤ) (battles : List Battle)
    (h : CombatSystem.at_most_one_battle battles) :
    CombatSystem.at_most_one_battle
      (CombatSystem.detect_battles_province countries units pid battles) := by
  rcases detect_battles_province_cases countries units pid battles with heq | ⟨hno, a, d, heq⟩
  · rw [heq]; exact h
  · rw [heq]
    intro p
    rw [List.countP_append]
    by_cases hp : p = pid
    · subst hp
      rw [countP_zero_of_no_battle battles p hno]
      simp
    · have hpp : ¬ pid = p := fun hx => hp hx.symm
      have h2 : List.countP (fun b => decide (b.province_id = p))
          [(⟨pid, [a], [d], 0⟩ : Battle)] = 0 := by
        simp [List.countP_cons, hpp]
      rw [h2]
      simpa using h p

/-- C10: battle detection preserves the one-battle-per-province invariant
(it never starts a battle in a province that already has one in the active
set), and removing a battle from the active set — the only other mutation
`update`, `resolve_battle_tick` and `end_battle` perform on it — preserves
it as well, so every reachable active set keeps at most one battle per
province. -/
theorem detect_battles_one_per_province (countries : List (String × Country))
    (units : List Unit) (provinces : List (ℤ × Province)) (battles : List Battle)
    (h : CombatSystem.at_most_one_battle battles) :
    CombatSystem.at_most_one_battle
      (CombatSystem.detect_battles countries units provinces battles) ∧
    ∀ b : Battle, CombatSystem.at_most_one_battle (battles.erase b) := by
  constructor
  · rw [CombatSystem.detect_battles]
    generalize provinces.map Prod.snd = ps
    induction ps generalizing battles with
    | nil => exact h
    | cons p rest ih =>
      rw [List.foldl_cons]
      exact ih _ (detect_battles_province_preserves countries units p.province_id battles h)
  · intro b p
    exact le_trans (List.Sublist.countP_le _ (List.erase_sublist b battles)) (h p)

/-- C10 witness: detection on the concrete warring state (a German and a
French unit in province 1, empty active set) yields an active set with at
most one battle per province. -/
theorem detect_battles_one_per_province_witness :
    CombatSystem.at_most_one_battle
      (CombatSystem.detect_battles warPair [gerUnit, fraUnit] [(1, fraProvince)] []) :=
  (detect_battles_one_per_province warPair [gerUnit, fraUnit] [(1, fraProvince)] []
    (by intro p; simp)).1

end Wargames
